import Mathlib

/-!
Verification of the spreadsheet-report extractor (`src/parser.py`).

The development shallowly embeds the module's pure logic:

* `as_int` — the numeric coercion `int(re.sub(r'.*?(\d+)$', r'\1', str(value)))`
  with its `TypeError/ValueError → 0` fallback;
* `SheetParser` — the merged-cell-aware extractor (`__init__`'s `max_column`
  scan, `get_cell_value`, `is_merged`, `iter`);
* `ReportTable` — the SQLite sink (`_create`, `append`, `select`).

Spreadsheet cells hold `PyVal` values (absent, text, or integer); strings are
restricted to ASCII-range characters where Python's `str.lower`, `\d`, and
`int()` have Unicode behaviour (noted at each definition).  Dates are days
since 1970-01-01 (proleptic Gregorian, the calendar `datetime.date` uses);
`datetime.date.today()` is an `Int` parameter `today`.
-/

/-- A Python value as it appears in a worksheet cell or an `as_int` argument:
`None`, a `str`, or an `int`. -/
inductive PyVal where
  | vnone : PyVal
  | vstr : String → PyVal
  | vint : Int → PyVal
deriving DecidableEq

/-- Python's `str(value)`: `str(None) = "None"`, strings unchanged, integers in
decimal with a leading `-` when negative (`toString (Int)` agrees). -/
def pyStr : PyVal → String
  | .vnone => "None"
  | .vstr s => s
  | .vint n => toString n

/-- ASCII decimal digit test: models `\d` of Python's `re` (restricted to the
ASCII range; non-ASCII decimal digits are outside the modelled alphabet). -/
def isDig (c : Char) : Bool := 48 ≤ c.toNat && c.toNat ≤ 57

/-- ASCII whitespace recognised by Python's `int()` / `str.strip` (space, tab,
LF, VT, FF, CR; again restricted to the ASCII range). -/
def isPySpace (c : Char) : Bool :=
  c.toNat = 32 || c.toNat = 9 || c.toNat = 10 || c.toNat = 11 || c.toNat = 12 || c.toNat = 13

/-- The maximal all-digit suffix of a character list (the text captured by
`(\d+)$` when it matches at the end of the search area). -/
def tdigits (cs : List Char) : List Char := (cs.reverse.takeWhile isDig).reverse

/-- Keep a list up to and including its last `'\n'`; `[]` when it has none.
Used below: `.` does not match `'\n'`, so `re.sub`'s match cannot start before
the last newline preceding the digit suffix, and the text up to that newline
survives the substitution unchanged. -/
def keepThroughLastNL (cs : List Char) : List Char :=
  (cs.reverse.dropWhile (fun c => c.toNat ≠ 10)).reverse

/-- Model of `re.sub(r'.*?(\d+)$', r'\1', ⟨cs⟩)`.

`$` matches at the very end or just before a final `'\n'`, so the search area
(`body`) is `cs` with at most one trailing newline removed.  When `body` ends
in at least one digit the (single) match runs from just after the last newline
before that digit run to the end of `body`, and is replaced by the captured
digit run; otherwise there is no match and `cs` is returned unchanged. -/
def reSub (cs : List Char) : List Char :=
  let finalNL : Bool := match cs.getLast? with
    | some c => c.toNat = 10
    | none => false
  let body := if finalNL then cs.dropLast else cs
  let d := tdigits body
  if d = [] then cs
  else keepThroughLastNL (body.take (body.length - d.length)) ++ d
    ++ (if finalNL then [Char.ofNat 10] else [])

/-- The number denoted by a digit list, most significant first. -/
def natOfDigits (cs : List Char) : Nat := cs.foldl (fun a c => a * 10 + (c.toNat - 48)) 0

/-- Digit-run parser for Python's `int()`: at least one digit, single
underscores allowed only between digits. -/
def pyDigits : List Char → Option Nat
  | [] => none
  | c :: rest => if isDig c then pyDigitsGo (c.toNat - 48) rest else none
where
  pyDigitsGo (acc : Nat) : List Char → Option Nat
    | [] => some acc
    | c :: rest =>
      if isDig c then pyDigitsGo (acc * 10 + (c.toNat - 48)) rest
      else if c.toNat = 95 then
        match rest with
        | c2 :: rest2 => if isDig c2 then pyDigitsGo (acc * 10 + (c2.toNat - 48)) rest2 else none
        | [] => none
      else none

/-- Python's `int(str)` (base 10, ASCII fragment): strip surrounding
whitespace, then an optional sign followed by digits (with optional single
underscores between digits); `none` models the `ValueError` path. -/
def pyIntChars (cs0 : List Char) : Option Int :=
  let cs := ((cs0.dropWhile isPySpace).reverse.dropWhile isPySpace).reverse
  match cs with
  | c :: rest =>
    if c.toNat = 43 then (pyDigits rest).map Int.ofNat
    else if c.toNat = 45 then (pyDigits rest).map (fun n => -(Int.ofNat n))
    else (pyDigits cs).map Int.ofNat
  | [] => none

/-- `as_int` (src/parser.py:13-17): `int(re.sub(r'.*?(\d+)$', r'\1',
str(value)))`, with the `except (TypeError, ValueError): return 0` fallback. -/
def as_int (value : PyVal) : Int :=
  match pyIntChars (reSub (pyStr value).data) with
  | some n => n
  | none => 0

/-! ## The worksheet model -/

/-- ASCII lower-casing of one character: models `str.lower` on the ASCII
range (`'A'..'Z'` map to `'a'..'z'`, everything else modelled unchanged). -/
def lowerChar (c : Char) : Char :=
  if 65 ≤ c.toNat ∧ c.toNat ≤ 90 then Char.ofNat (c.toNat + 32) else c

/-- `str.lower` (ASCII fragment). -/
def asciiLower (s : String) : String := ⟨s.data.map lowerChar⟩

/-- A merged cell range of the worksheet (`sheet.merged_cells.ranges`), as the
rectangle of 1-based coordinates it covers. -/
structure MergedRange where
  minRow : Nat
  minCol : Nat
  maxRow : Nat
  maxCol : Nat
deriving DecidableEq

/-- `cell.coordinate in merged_range`: the coordinate lies inside the
rectangle. -/
def MergedRange.containsCell (rg : MergedRange) (row col : Nat) : Bool :=
  decide (rg.minRow ≤ row) && decide (row ≤ rg.maxRow) &&
  decide (rg.minCol ≤ col) && decide (col ≤ rg.maxCol)

/-- An openpyxl worksheet: cell values by (row, column), both 1-based; the
declared merged ranges; and the sheet's `max_row` / `max_column` dimensions
(maintained by openpyxl, taken here as given data of the sheet). In a
well-formed workbook only a merged range's anchor (top-left) cell carries a
value, the other cells of the range read as `None`; theorems state this
explicitly where they rely on it. -/
structure Sheet where
  values : Nat → Nat → PyVal
  merged : List MergedRange
  maxRow : Nat
  maxCol : Nat

/-- `SheetParser.is_merged` (src/parser.py:102-109): linear scan of all
declared merged ranges for one containing the cell's coordinate. -/
def is_merged (s : Sheet) (row col : Nat) : Bool :=
  s.merged.any (fun rg => rg.containsCell row col)

/-- `SheetParser.get_cell_value` (src/parser.py:95-100):
`default if cell.value is None and self.is_merged(cell) else
str(cell.value).lower()`.  Note the else-branch stringifies a blank unmerged
cell to the literal `"none"`. -/
def get_cell_value (s : Sheet) (row col : Nat) (default : Option String) :
    Option String :=
  if s.values row col = PyVal.vnone ∧ is_merged s row col = true then default
  else some (asciiLower (pyStr (s.values row col)))

/-- The column letter of a 1-based column index, as openpyxl spells cell
coordinates (`1 ↦ "A"`, `26 ↦ "Z"`, `27 ↦ "AA"`; bijective base 26). -/
def colChars : Nat → Nat → List Char
  | _, 0 => []
  | 0, _ => []
  | fuel + 1, n => colChars fuel ((n - 1) / 26) ++ [Char.ofNat (65 + (n - 1) % 26)]

/-- Column letter of column index `n ≥ 1`. -/
def colLetter (n : Nat) : String := ⟨colChars n n⟩

/-- The 1-based column index of a column-letter string (what openpyxl's range
slicing computes back from a letter; inverse of `colLetter`). -/
def colIndex (s : String) : Nat := s.data.foldl (fun a c => a * 26 + (c.toNat - 64)) 0

/-- The `max_column` scan of `SheetParser.__init__` (src/parser.py:85-89),
from column `i` with `fuel` columns left to inspect and `acc` the value
written so far: stop at the first row-1 cell that is blank and unmerged,
otherwise record this cell's column letter and continue.  The source stores
`re.sub(r'^(\w+)\d+$', r'\1', cell.coordinate)`; the coordinate is
`colLetter i ++ "1"` and the greedy `(\w+)` yields everything but the final
row digit, i.e. `colLetter i`. -/
def scanMaxAux (s : Sheet) : Nat → Nat → Option String → Option String
  | _, 0, acc => acc
  | i, fuel + 1, acc =>
    if s.values 1 i = PyVal.vnone ∧ is_merged s 1 i = false then acc
    else scanMaxAux s (i + 1) fuel (some (colLetter i))

/-- `for i in range(0, self.sheet.max_column): ...` of `__init__`, starting
from `self.max_column = None`. -/
def scanMax (s : Sheet) : Option String := scanMaxAux s 1 s.maxCol none

/-- The constructed extractor: the resolved worksheet plus the `max_column`
field `__init__` computed (sheet-name resolution and its `KeyError` are
openpyxl's concern and outside the model). -/
structure SheetParser where
  sheet : Sheet
  max_column : Option String

/-- `SheetParser.__init__` (src/parser.py:80-89). -/
def SheetParser.init (s : Sheet) : SheetParser := ⟨s, scanMax s⟩

/-- One yielded `DataTuple` (src/parser.py:72-78, 127-133):
`(type, name, today + timedelta(days=as_int(date)), as_int(cell.value),
as_int(ccell.value))`.  `type`/`name` are `str | None` exactly as the carried
header variables; the date is the day number `today + offset`. -/
structure Record where
  type : Option String
  name : Option String
  date : Int
  value : Int
  company_id : Int
deriving DecidableEq

/-- The carried header value fed to `as_int`: Python passes the `str | None`
variable itself. -/
def pyOfHeader : Option String → PyVal
  | none => PyVal.vnone
  | some v => PyVal.vstr v

/-- The inner loop of `iter` over one worksheet row (src/parser.py:122-133):
walk the columns left to right, updating the three carried header variables
through `get_cell_value` and yielding one record per cell; returns the yielded
records and the final header state, which persists into the next row. -/
def runRow (s : Sheet) (trow nrow drow ccol : Nat) (today : Int) (r : Nat) :
    List Nat → Option String → Option String → Option String →
    List Record × (Option String × Option String × Option String)
  | [], t, n, d => ([], (t, n, d))
  | c :: cs, t, n, d =>
    let t' := get_cell_value s trow c t
    let n' := get_cell_value s nrow c n
    let d' := get_cell_value s drow c d
    let rec0 : Record :=
      { type := t', name := n', date := today + as_int (pyOfHeader d'),
        value := as_int (s.values r c), company_id := as_int (s.values r ccol) }
    let rest := runRow s trow nrow drow ccol today r cs t' n' d'
    (rec0 :: rest.1, rest.2)

/-- The outer loop of `iter` over the sliced region's rows
(src/parser.py:121), threading the header state across rows. -/
def runRows (s : Sheet) (trow nrow drow ccol : Nat) (today : Int)
    (cols : List Nat) :
    List Nat → Option String × Option String × Option String → List Record
  | [], _ => []
  | r :: rs, st =>
    let step := runRow s trow nrow drow ccol today r cols st.1 st.2.1 st.2.2
    step.1 ++ runRows s trow nrow drow ccol today cols rs step.2

/-- The columns the slice `self.sheet[start:end]` walks in each row: the
contiguous range from `start_col` to the stored `max_column` letter (empty
when `max_column` is still `None`; `iter` then fails before this range is
ever consulted). -/
def visitedCols (p : SheetParser) (start_col : String) : List Nat :=
  match p.max_column with
  | none => []
  | some mc => List.range' (colIndex start_col) (colIndex mc + 1 - colIndex start_col)

/-- The rows the slice walks: `start_row` through `sheet.max_row`. -/
def visitedRows (p : SheetParser) (start_row : Nat) : List Nat :=
  List.range' start_row (p.sheet.maxRow + 1 - start_row)

/-- `SheetParser.iter` (src/parser.py:111-133) as the finite sequence the
generator produces.  When `max_column` is `None`, building the region's end
coordinate `self.__coord(self.sheet.max_row, self.max_column)` evaluates
`None + str(...)` and raises `TypeError` on the first `next()`, before any
record is yielded: modelled as `none`.  Otherwise the region rows
`start_row..max_row` × columns `start_col..max_column` are walked with the
three header variables starting at `None`. -/
def SheetParser.iter (p : SheetParser) (start_row : Nat) (start_col : String)
    (trow nrow drow : Nat) (company_col : String) (today : Int) :
    Option (List Record) :=
  match p.max_column with
  | none => none
  | some _ =>
    some (runRows p.sheet trow nrow drow (colIndex company_col) today
      (visitedCols p start_col) (visitedRows p start_row) (none, none, none))

/-- `iter`'s default arguments: `start_row=4, start_col='C', type_row=1,
name_row=2, date_row=3, company_col='B'`. -/
def iterDefault (p : SheetParser) (today : Int) : Option (List Record) :=
  p.iter 4 "C" 1 2 3 "B" today

/-! ## The relational store model -/

/-- Civil (proleptic Gregorian) date of a day number counted from 1970-01-01;
the standard era-based conversion, returning (year, month, day). -/
def civilFromDays (z0 : Int) : Int × Nat × Nat :=
  let z : Int := z0 + 719468
  let era : Int := z.fdiv 146097
  let doe : Nat := (z - era * 146097).toNat
  let yoe : Nat := (doe - doe / 1460 + doe / 36524 - doe / 146096) / 365
  let doy : Nat := doe - (365 * yoe + yoe / 4 - yoe / 100)
  let mp : Nat := (5 * doy + 2) / 153
  let d : Nat := doy - (153 * mp + 2) / 5 + 1
  let m : Nat := if mp < 10 then mp + 3 else mp - 9
  ((era * 400 + yoe : Int) + (if m ≤ 2 then 1 else 0), m, d)

/-- Two-digit zero-padded rendering (`%m`, `%d`). -/
def pad2 (n : Nat) : String := if n < 10 then "0" ++ toString n else toString n

/-- `date.strftime("%Y-%m-%d")` of the date `today`-style day number: ISO
text with zero-padded month and day; `%Y` is rendered unpadded as glibc does
(identical to the padded form for the years 1000–9999 that
`datetime.date` arithmetic stays in for realistic inputs). -/
def isoDate (z : Int) : String :=
  let c := civilFromDays z
  toString c.1 ++ "-" ++ pad2 c.2.1 ++ "-" ++ pad2 c.2.2

/-- One persisted row of the `report` table (schema at src/parser.py:22-28):
`type TEXT NOT NULL, name TEXT NOT NULL, date TEXT NOT NULL,
value INTEGER NOT NULL, company_id INTEGER NOT NULL`. -/
structure DBRow where
  type : String
  name : String
  date : String
  value : Int
  company_id : Int
deriving DecidableEq

/-- The `report` table's state: its rows in insertion order. -/
structure ReportTable where
  rows : List DBRow
deriving DecidableEq

/-- `ReportTable.__init__`/`_create` (src/parser.py:30-41): `DROP TABLE IF
EXISTS` then `CREATE TABLE`, so whatever rows the backing file held before
(`prior`) are discarded and the table starts empty. -/
def ReportTable.create (_prior : List DBRow) : ReportTable := ⟨[]⟩

/-- The interior of a SQL single-quoted literal, as sqlite lexes the text the
f-string of `append` produces between two quotes: every `'` inside must occur
as a doubled pair `''` (decoded to one `'`); a lone `'` closes the literal
early and leaves the statement malformed — sqlite rejects the INSERT (e.g.
`type = "a'b"` yields `VALUES ('a'b', ...)`, a syntax error), and the model
maps every such interior to `none`.  (Contrived interiors that re-enter SQL
syntax, e.g. `x'||'y`, would execute without inserting the given field values;
they are likewise mapped to `none`, the "does not insert this record" case.) -/
def sqlLiteral : List Char → Option (List Char)
  | [] => some []
  | c :: rest =>
    if c.toNat = 39 then
      match rest with
      | c2 :: rest2 =>
        if c2.toNat = 39 then (sqlLiteral rest2).map (fun l => c :: l) else none
      | [] => none
    else (sqlLiteral rest).map (fun l => c :: l)

/-- `ReportTable.append` (src/parser.py:47-57): the f-string
`INSERT INTO report VALUES ('{type}', '{name}', '{date.strftime("%Y-%m-%d")}',
{value}, {company_id})` executed and committed.  The stored text fields are
the SQL-decoded forms of the interpolated strings; a string that breaks the
literal makes the INSERT fail (`none`).  The date is interpolated in its ISO
form, integers in decimal. -/
def ReportTable.append (t : ReportTable) (type name : String) (date : Int)
    (value company_id : Int) : Option ReportTable :=
  match sqlLiteral type.data, sqlLiteral name.data with
  | some ty, some nm =>
    some ⟨t.rows ++ [{ type := ⟨ty⟩, name := ⟨nm⟩, date := isoDate date,
                       value := value, company_id := company_id }]⟩
  | _, _ => none

/-- A plain column reference in a `select` field list or `GROUP BY` clause. -/
inductive ColField where
  | ftype | fname | fdate | fvalue | fcompany
deriving DecidableEq

/-- A projected field of `select`: a plain column (optionally aliased, which
only affects the result-dict key, not the value) or the aggregate
`SUM(value)` the program uses. -/
inductive SelField where
  | col : ColField → SelField
  | sum : SelField
deriving DecidableEq

/-- A value in a sqlite result row: TEXT, INTEGER, or NULL. -/
inductive SqlVal where
  | s : String → SqlVal
  | i : Int → SqlVal
  | null : SqlVal
deriving DecidableEq

/-- The value a row holds in a plain column. -/
def rowVal (r : DBRow) : ColField → SqlVal
  | .ftype => .s r.type
  | .fname => .s r.name
  | .fdate => .s r.date
  | .fvalue => .i r.value
  | .fcompany => .i r.company_id

/-- Is the field an aggregate expression? -/
def SelField.isAgg : SelField → Bool
  | .sum => true
  | .col _ => false

/-- Value of a field over a row group: `SUM(value)` sums the group (SQL NULL
over the empty group, as sqlite's SUM yields); a bare column takes its value
from the group's representative row (sqlite picks an unspecified row of the
group; the program only selects bare columns it also groups by, on which all
rows of a group agree, so the choice of first row is immaterial there). -/
def aggEval (rows : List DBRow) : SelField → SqlVal
  | .sum =>
    match rows with
    | [] => .null
    | _ => .i (rows.foldl (fun a r => a + r.value) 0)
  | .col c =>
    match rows.head? with
    | none => .null
    | some r => rowVal r c

/-- The grouping key of a row under a `GROUP BY` column list. -/
def rowKey (g : List ColField) (r : DBRow) : List SqlVal := g.map (rowVal r)

/-- The distinct keys in order of first appearance.  (Absent an ORDER BY,
sqlite leaves the group output order unspecified; first appearance is the
model's choice and no theorem below depends on the order of two distinct
groups.) -/
def firstKeys : List (List SqlVal) → List (List SqlVal)
  | [] => []
  | k :: ks => k :: firstKeys (ks.filter (fun x => decide (x ≠ k)))
termination_by l => l.length
decreasing_by
  simp only [List.length_cons]
  exact Nat.lt_succ_of_le (List.length_filter_le _ _)

/-- `ReportTable.select` (src/parser.py:59-67) for the query forms the program
issues: `SELECT fields FROM report [GROUP BY g]`, one output row per result
row, fields evaluated positionally (the result-dict column naming adds
nothing over the position once aliases are fixed).  Without GROUP BY, a
field list containing an aggregate makes the whole query one aggregate row —
even over an empty table — while a plain field list projects each row. -/
def ReportTable.select (t : ReportTable) (fields : List SelField)
    (group_by : Option (List ColField)) : List (List SqlVal) :=
  match group_by with
  | none =>
    if fields.any SelField.isAgg then [fields.map (aggEval t.rows)]
    else t.rows.map (fun r => fields.map (aggEval [r]))
  | some g =>
    (firstKeys (t.rows.map (rowKey g))).map (fun k =>
      fields.map (aggEval (t.rows.filter (fun r => decide (rowKey g r = k)))))

/-! ## The pipeline glue the claims exercise -/

/-- The f-string rendering of a `str | None` field when interpolated into the
INSERT: `None` prints as `"None"`, a string as itself. -/
def fstr : Option String → String
  | none => "None"
  | some v => v

/-- The load loop of the command glue (src/parser.py:145-146):
`for row in SheetParser(...).iter(): report.append(*row)`, stopping with
`none` if an insert fails. -/
def loadRecords (t : ReportTable) : List Record → Option ReportTable
  | [] => some t
  | r :: rs =>
    match t.append (fstr r.type) (fstr r.name) r.date r.value r.company_id with
    | some t' => loadRecords t' rs
    | none => none

/-- Appending a list of already-extracted records, given as
(type, name, date, value, company_id) tuples, via `ReportTable.append`;
`none` as soon as one insert fails. -/
def appendAll (t : ReportTable) : List (String × String × Int × Int × Int) → Option ReportTable
  | [] => some t
  | p :: ps =>
    match t.append p.1 p.2.1 p.2.2.1 p.2.2.2.1 p.2.2.2.2 with
    | some t2 => appendAll t2 ps
    | none => none

/-- The sqlite result row that `select type, name, date, value, company_id`
produces for an appended tuple. -/
def tupleRow (p : String × String × Int × Int × Int) : List SqlVal :=
  [SqlVal.s p.1, SqlVal.s p.2.1, SqlVal.s (isoDate p.2.2.1),
   SqlVal.i p.2.2.2.1, SqlVal.i p.2.2.2.2]

/-- The end-to-end scenario sheet of the spec (§8): 4 rows; header row 1 holds
`"revenue"` merged across C1:D1; the `"sales"` and `"10"` header rows span
the same region C:D (realised, as the carry-forward reading of the scenario
requires, as merges anchored at C2 and C3); data row 4 has C4=`"100"`,
D4=`"200"`; the company column B has B4=`"7"`.  Columns A and B carry header
text in row 1 (any non-blank values there serve: the `max_column` scan must
cross them to reach D). -/
def sheetC1 : Sheet where
  values := fun r c =>
    match r, c with
    | 1, 1 => .vstr "id"
    | 1, 2 => .vstr "company"
    | 1, 3 => .vstr "revenue"
    | 2, 3 => .vstr "sales"
    | 3, 3 => .vstr "10"
    | 4, 2 => .vstr "7"
    | 4, 3 => .vstr "100"
    | 4, 4 => .vstr "200"
    | _, _ => .vnone
  merged := [⟨1, 3, 1, 4⟩, ⟨2, 3, 2, 4⟩, ⟨3, 3, 3, 4⟩]
  maxRow := 4
  maxCol := 4


/-! ## Analysis definitions

Header attribution as a function of the visited column sequence.  `iter`
threads the three carried header variables through the nested loops; the
lemmas below prove that the `type`/`name`/`date` components of its records
are exactly the values `attrib` assigns to the successive visited columns. -/

/-- The header value attributed to each column of `cols` in turn, for header
row `hr`, starting from the carried value `d`: each column's value is
`get_cell_value` of that column with the previous value as default. -/
def attrib (s : Sheet) (hr : Nat) (d : Option String) : List Nat → List (Option String)
  | [] => []
  | c :: cs => get_cell_value s hr c d :: attrib s hr (get_cell_value s hr c d) cs

/-- The carried header value after scanning `cols`. -/
def attribLast (s : Sheet) (hr : Nat) (d : Option String) (cols : List Nat) :
    Option String :=
  cols.foldl (fun a c => get_cell_value s hr c a) d

/-- The full column sequence of an iteration: each of the `n` visited rows
re-walks the same column list. -/
def colSeq (n : Nat) (cols : List Nat) : List Nat := (List.replicate n cols).flatten

/-- The components of a record that come from the header rows (type, name,
date), discarding the two that come from the data row (value, company_id). -/
def recHeader (r : Record) : Option String × Option String × Int :=
  (r.type, r.name, r.date)

/-- The stopping condition of the `max_column` scan at column `i`: row-1 cell
blank and not in any merged region. -/
def scanStops (s : Sheet) (i : Nat) : Prop :=
  s.values 1 i = PyVal.vnone ∧ is_merged s 1 i = false

instance (s : Sheet) (i : Nat) : Decidable (scanStops s i) := by
  unfold scanStops; infer_instance

/-! ## Concrete worksheets used by counterexamples and witnesses -/

/-- A sheet whose only merged region A1:C1 is anchored at A1 = `"X"`, left of
the default start column C.  The scan crosses B1, C1 (blank but merged), so
`max_column = "C"` and column C is visited — yet its attributed type header is
the carried `None`, not the anchor's value. -/
def sheetAnchorWest : Sheet where
  values := fun r c =>
    match r, c with
    | 1, 1 => .vstr "X"
    | 4, 3 => .vstr "5"
    | _, _ => .vnone
  merged := [⟨1, 1, 1, 3⟩]
  maxRow := 4
  maxCol := 3

/-- A one-data-row sheet with a merged header C1:E1 anchored at C1 = `"Rev"`,
whose anchor lies at the start column: used to witness the amended merged-span
attribution claim. -/
def sheetSpanEast : Sheet where
  values := fun r c =>
    match r, c with
    | 1, 1 => .vstr "a"
    | 1, 2 => .vstr "b"
    | 1, 3 => .vstr "Rev"
    | 2, 3 => .vstr "n"
    | 2, 4 => .vstr "n"
    | 2, 5 => .vstr "n"
    | 3, 3 => .vstr "1"
    | 3, 4 => .vstr "2"
    | 3, 5 => .vstr "3"
    | 4, 3 => .vstr "10"
    | _, _ => .vnone
  merged := [⟨1, 3, 1, 5⟩]
  maxRow := 4
  maxCol := 5

/-- A sheet whose first header row is populated in A1..C1 and blank, unmerged,
in D1: the boundary case of the `max_column` scan. -/
def sheetBlankD : Sheet where
  values := fun r c =>
    match r, c with
    | 1, 1 => .vstr "a"
    | 1, 2 => .vstr "b"
    | 1, 3 => .vstr "c"
    | 1, 5 => .vstr "e"
    | 4, 3 => .vstr "30"
    | 4, 4 => .vstr "40"
    | _, _ => .vnone
  merged := []
  maxRow := 4
  maxCol := 5

/-- A sheet whose A1 is blank and unmerged: the scan stops immediately and
`max_column` keeps its initial `None`. -/
def sheetBlankA1 : Sheet where
  values := fun r c =>
    match r, c with
    | 1, 2 => .vstr "b"
    | 4, 3 => .vstr "100"
    | _, _ => .vnone
  merged := []
  maxRow := 4
  maxCol := 2

/-- `sheetC1` with only the data cell C4 changed (`"100"` → `"777"`): used to
witness that the record headers do not depend on the data cell. -/
def sheetC1data : Sheet :=
  { sheetC1 with
    values := fun r c => if r = 4 ∧ c = 3 then .vstr "777" else sheetC1.values r c }

/-! ## Supporting lemmas -/

theorem attribLast_append (s : Sheet) (hr : Nat) (d : Option String)
    (l1 l2 : List Nat) :
    attribLast s hr d (l1 ++ l2) = attribLast s hr (attribLast s hr d l1) l2 := by
  simp [attribLast, List.foldl_append]

theorem attrib_append (s : Sheet) (hr : Nat) (d : Option String)
    (l1 l2 : List Nat) :
    attrib s hr d (l1 ++ l2) = attrib s hr d l1 ++ attrib s hr (attribLast s hr d l1) l2 := by
  induction l1 generalizing d with
  | nil => simp [attrib, attribLast]
  | cons c cs ih => simp [attrib, attribLast, ih, List.foldl_cons]

/-- Carry-forward across a merged span: scanning columns `acol, …, acol + j`
in order, where the anchor `acol` is non-blank and every later column of the
span is blank and merged, ends with the anchor's lower-cased string form as
the carried value — whatever value `d` was carried before the span. -/
theorem attribLast_span (s : Sheet) (hr acol j : Nat) (d : Option String)
    (hanchor : s.values hr acol ≠ PyVal.vnone)
    (hblank : ∀ k, acol < k → k ≤ acol + j →
      s.values hr k = PyVal.vnone ∧ is_merged s hr k = true) :
    attribLast s hr d (List.range' acol (j + 1)) =
      some (asciiLower (pyStr (s.values hr acol))) := by
  induction j with
  | zero =>
    have h1 : List.range' acol (0 + 1) = [acol] := by simp
    rw [h1]
    simp only [attribLast, List.foldl_cons, List.foldl_nil]
    unfold get_cell_value
    rw [if_neg]
    rintro ⟨h1, _⟩; exact hanchor h1
  | succ j ih =>
    rw [List.range'_1_concat, attribLast_append,
        ih (fun k h1 h2 => hblank k h1 (by omega))]
    have hk := hblank (acol + (j + 1)) (by omega) (by omega)
    simp only [attribLast, List.foldl_cons, List.foldl_nil]
    unfold get_cell_value
    rw [if_pos ⟨hk.1, hk.2⟩]

/-- The inner loop emits, as the `type`, `name` and date components of its
records, exactly the attributed header values of the visited columns; its
final carried state is the `attribLast` of each header row. -/
theorem runRow_spec (s : Sheet) (trow nrow drow ccol : Nat) (today : Int)
    (r : Nat) (cols : List Nat) (t n d : Option String) :
    (runRow s trow nrow drow ccol today r cols t n d).1.map Record.type =
        attrib s trow t cols ∧
    (runRow s trow nrow drow ccol today r cols t n d).1.map Record.name =
        attrib s nrow n cols ∧
    (runRow s trow nrow drow ccol today r cols t n d).1.map Record.date =
        (attrib s drow d cols).map (fun x => today + as_int (pyOfHeader x)) ∧
    (runRow s trow nrow drow ccol today r cols t n d).2 =
        (attribLast s trow t cols, attribLast s nrow n cols, attribLast s drow d cols) := by
  induction cols generalizing t n d with
  | nil => simp [runRow, attrib, attribLast]
  | cons c cs ih =>
    obtain ⟨h1, h2, h3, h4⟩ := ih (get_cell_value s trow c t)
      (get_cell_value s nrow c n) (get_cell_value s drow c d)
    simp only [runRow, attrib, attribLast, List.map_cons, List.foldl_cons]
    exact ⟨by rw [h1], by rw [h2], by rw [h3], h4⟩

/-- The outer loop emits the attributed header values of the flattened column
sequence (`rows.length` repetitions of the per-row column list). -/
theorem runRows_spec (s : Sheet) (trow nrow drow ccol : Nat) (today : Int)
    (cols : List Nat) (rows : List Nat) (t n d : Option String) :
    (runRows s trow nrow drow ccol today cols rows (t, n, d)).map Record.type =
        attrib s trow t (colSeq rows.length cols) ∧
    (runRows s trow nrow drow ccol today cols rows (t, n, d)).map Record.name =
        attrib s nrow n (colSeq rows.length cols) ∧
    (runRows s trow nrow drow ccol today cols rows (t, n, d)).map Record.date =
        (attrib s drow d (colSeq rows.length cols)).map
          (fun x => today + as_int (pyOfHeader x)) := by
  induction rows generalizing t n d with
  | nil => simp [runRows, colSeq, attrib]
  | cons r rs ih =>
    obtain ⟨g1, g2, g3, g4⟩ := runRow_spec s trow nrow drow ccol today r cols t n d
    have hseq : colSeq (r :: rs).length cols = cols ++ colSeq rs.length cols := by
      simp [colSeq, List.replicate_succ]
    obtain ⟨i1, i2, i3⟩ := ih (attribLast s trow t cols) (attribLast s nrow n cols)
      (attribLast s drow d cols)
    refine ⟨?_, ?_, ?_⟩ <;>
      simp only [runRows, g4, List.map_append, hseq, attrib_append, g1, g2, g3, i1, i2, i3]

theorem toNat_ofNat_small (k : Nat) (h : k < 55296) : (Char.ofNat k).toNat = k := by
  have hv : k.isValidChar := Or.inl h
  simp only [Char.ofNat, dif_pos hv, Char.ofNatAux, Char.toNat]
  rfl

/-- openpyxl's slicing recovers the column index from the letter `__init__`
stored: `colIndex` is a left inverse of `colLetter` on indices ≥ 1. -/
theorem colIndex_colLetter (n : Nat) (h : 1 ≤ n) : colIndex (colLetter n) = n := by
  suffices H : ∀ fuel n, 1 ≤ n → n ≤ fuel →
      (colChars fuel n).foldl (fun a c => a * 26 + (c.toNat - 64)) 0 = n by
    exact H n n h (Nat.le_refl n)
  intro fuel
  induction fuel with
  | zero => intro n h1 h2; omega
  | succ fuel ih =>
    intro n h1 h2
    cases n with
    | zero => omega
    | succ m =>
      have hchar : (Char.ofNat (65 + m % 26)).toNat = 65 + m % 26 :=
        toNat_ofNat_small _ (by omega)
      have hstep : colChars (fuel + 1) (m + 1)
          = colChars fuel (m / 26) ++ [Char.ofNat (65 + m % 26)] := rfl
      rw [hstep, List.foldl_append]
      rcases Nat.eq_zero_or_pos (m / 26) with hq | hq
      · rw [hq]
        have hz : colChars fuel 0 = [] := by cases fuel <;> rfl
        rw [hz]
        simp only [List.foldl_nil, List.foldl_cons, hchar]
        have : m % 26 = m := Nat.mod_eq_of_lt (by omega)
        omega
      · rw [ih (m / 26) hq (by omega)]
        simp only [List.foldl_cons, List.foldl_nil, hchar]
        have := Nat.div_add_mod m 26
        omega

/-- Characterisation of the `max_column` loop: if the scan starting at column
`i` (with `fuel` columns left) first meets the stopping condition at column
`k`, it returns the value carried into `k` — `acc` when `k` is the first
column inspected, the letter of `k - 1` otherwise. -/
theorem scanMaxAux_spec (s : Sheet) (fuel : Nat) : ∀ (i k : Nat) (acc : Option String),
    i ≤ k → k < i + fuel → scanStops s k → (∀ m, i ≤ m → m < k → ¬ scanStops s m) →
    scanMaxAux s i fuel acc = if k = i then acc else some (colLetter (k - 1)) := by
  induction fuel with
  | zero => intro i k acc h1 h2 _ _; omega
  | succ fuel ih =>
    intro i k acc h1 h2 hstop hpass
    by_cases hi : scanStops s i
    · have hi' : s.values 1 i = PyVal.vnone ∧ is_merged s 1 i = false := hi
      have hki : k = i := by
        by_contra hne
        exact hpass i (Nat.le_refl i) (by omega) hi
      rw [scanMaxAux, if_pos hi', if_pos hki]
    · have hi' : ¬ (s.values 1 i = PyVal.vnone ∧ is_merged s 1 i = false) := hi
      have hki : i < k := by
        rcases Nat.lt_or_ge i k with hlt | hge
        · exact hlt
        · exfalso
          have hk : k = i := by omega
          rw [hk] at hstop
          exact hi hstop
      rw [scanMaxAux, if_neg hi',
        ih (i + 1) k (some (colLetter i)) (by omega) (by omega) hstop
          (fun m hm1 hm2 => hpass m (by omega) hm2)]
      by_cases hk1 : k = i + 1
      · rw [if_pos hk1, if_neg (by omega)]
        have hkm : k - 1 = i := by omega
        rw [hkm]
      · rw [if_neg hk1, if_neg (by omega)]

/-- When the very first column stops the scan (or the sheet has no columns),
`max_column` keeps its initial `None`. -/
theorem scanMax_stop1 (s : Sheet) (h : scanStops s 1) : scanMax s = none := by
  have h' : s.values 1 1 = PyVal.vnone ∧ is_merged s 1 1 = false := h
  unfold scanMax
  cases hc : s.maxCol with
  | zero => rfl
  | succ m => rw [scanMaxAux, if_pos h']

/-- A string without single quotes passes through the SQL literal unchanged. -/
theorem sqlLiteral_quoteFree (cs : List Char) (h : ∀ c ∈ cs, c.toNat ≠ 39) :
    sqlLiteral cs = some cs := by
  induction cs with
  | nil => rfl
  | cons c rest ih =>
    have hc : ¬ c.toNat = 39 := h c (by simp)
    rw [sqlLiteral.eq_def]
    simp only [if_neg hc, ih (fun x hx => h x (by simp [hx])), Option.map_some']

/-- A digit character is not whitespace, a sign, a newline, or a quote. -/
theorem isDig_facts {c : Char} (h : isDig c = true) :
    isPySpace c = false ∧ c.toNat ≠ 43 ∧ c.toNat ≠ 45 ∧ c.toNat ≠ 10 := by
  have h' : 48 ≤ c.toNat ∧ c.toNat ≤ 57 := by simpa [isDig] using h
  refine ⟨?_, by omega, by omega, by omega⟩
  simp only [isPySpace]
  simp only [Bool.or_eq_false_iff, decide_eq_false_iff_not]
  omega

theorem dropWhile_of_all_not (p : Char → Bool) {l : List Char}
    (h : ∀ c ∈ l, p c = false) : l.dropWhile p = l := by
  cases l with
  | nil => rfl
  | cons c cs =>
    rw [List.dropWhile_cons, if_neg]
    simp [h c (by simp)]

theorem pyDigitsGo_digits (rest : List Char) : ∀ (acc : Nat),
    (∀ c ∈ rest, isDig c = true) →
    pyDigits.pyDigitsGo acc rest =
      some (rest.foldl (fun a c => a * 10 + (c.toNat - 48)) acc) := by
  induction rest with
  | nil => intro acc _; rfl
  | cons c cs ih =>
    intro acc h
    have hc : isDig c = true := h c (by simp)
    rw [pyDigits.pyDigitsGo.eq_def]
    simp only [if_pos hc, ih _ (fun x hx => h x (by simp [hx])), List.foldl_cons]

/-- Python's `int()` on a nonempty all-digit string returns its value. -/
theorem pyIntChars_digits (cs : List Char) (hne : cs ≠ [])
    (h : ∀ c ∈ cs, isDig c = true) :
    pyIntChars cs = some (Int.ofNat (natOfDigits cs)) := by
  have hs1 : cs.dropWhile isPySpace = cs :=
    dropWhile_of_all_not _ (fun c hc => (isDig_facts (h c hc)).1)
  have hs2 : cs.reverse.dropWhile isPySpace = cs.reverse :=
    dropWhile_of_all_not _ (fun c hc => (isDig_facts (h c (List.mem_reverse.mp hc))).1)
  unfold pyIntChars
  rw [hs1, hs2, List.reverse_reverse]
  cases cs with
  | nil => exact absurd rfl hne
  | cons c rest =>
    have hc := h c (by simp)
    have hf := isDig_facts hc
    simp only [if_neg hf.2.1, if_neg hf.2.2.1]
    rw [pyDigits, if_pos hc, pyDigitsGo_digits rest _ (fun x hx => h x (by simp [hx]))]
    simp [natOfDigits]

/-- Every character of the trailing digit run is a digit. -/
theorem tdigits_all_dig (cs : List Char) : ∀ c ∈ tdigits cs, isDig c = true := by
  intro c hc
  unfold tdigits at hc
  exact List.mem_takeWhile_imp (List.mem_reverse.mp hc)

theorem keepThroughLastNL_eq_nil {cs : List Char} (h : ∀ c ∈ cs, c.toNat ≠ 10) :
    keepThroughLastNL cs = [] := by
  unfold keepThroughLastNL
  rw [List.dropWhile_eq_nil_iff.mpr]
  · rfl
  · intro x hx
    simp [h x (List.mem_reverse.mp hx)]

/-- The value of the `finalNL` test of `reSub` on a newline-free string. -/
theorem reSub_finalNL_false {cs : List Char} (hnl : ∀ c ∈ cs, c.toNat ≠ 10) :
    (match cs.getLast? with
      | some c => (decide (c.toNat = 10) : Bool)
      | none => false) = false := by
  cases hl : cs.getLast? with
  | none => rfl
  | some c => simp [hnl c (List.mem_of_getLast?_eq_some hl)]

/-- On a newline-free string with a trailing digit run, `re.sub` leaves
exactly the digit run. -/
theorem reSub_digits (cs : List Char) (hnl : ∀ c ∈ cs, c.toNat ≠ 10)
    (hd : tdigits cs ≠ []) : reSub cs = tdigits cs := by
  unfold reSub
  rw [reSub_finalNL_false hnl]
  simp only [if_neg hd, Bool.false_eq_true, if_false]
  rw [keepThroughLastNL_eq_nil (fun c hc => hnl c (List.take_subset _ _ hc))]
  simp

/-- On a newline-free string without a trailing digit run, `re.sub` is the
identity. -/
theorem reSub_nodigits (cs : List Char) (hnl : ∀ c ∈ cs, c.toNat ≠ 10)
    (hd : tdigits cs = []) : reSub cs = cs := by
  unfold reSub
  rw [reSub_finalNL_false hnl]
  simp only [Bool.false_eq_true, if_false, if_pos hd]

theorem get_cell_value_congr (s1 s2 : Sheet) (r c : Nat) (d : Option String)
    (hv : s1.values r c = s2.values r c) (hm : s1.merged = s2.merged) :
    get_cell_value s1 r c d = get_cell_value s2 r c d := by
  unfold get_cell_value is_merged
  rw [hv, hm]

/-- Two sheets agreeing on the three header rows (and merged ranges) produce
records with identical header components in one data row, whatever the data
cells hold; the carried header state also evolves identically. -/
theorem runRow_congr (s1 s2 : Sheet) (trow nrow drow ccol : Nat) (today : Int)
    (r : Nat) (cols : List Nat) (t n d : Option String)
    (hm : s1.merged = s2.merged)
    (h1 : ∀ c, s1.values trow c = s2.values trow c)
    (h2 : ∀ c, s1.values nrow c = s2.values nrow c)
    (h3 : ∀ c, s1.values drow c = s2.values drow c) :
    (runRow s1 trow nrow drow ccol today r cols t n d).1.map recHeader =
      (runRow s2 trow nrow drow ccol today r cols t n d).1.map recHeader ∧
    (runRow s1 trow nrow drow ccol today r cols t n d).2 =
      (runRow s2 trow nrow drow ccol today r cols t n d).2 := by
  induction cols generalizing t n d with
  | nil => exact ⟨rfl, rfl⟩
  | cons c cs ih =>
    have e1 := get_cell_value_congr s1 s2 trow c t (h1 c) hm
    have e2 := get_cell_value_congr s1 s2 nrow c n (h2 c) hm
    have e3 := get_cell_value_congr s1 s2 drow c d (h3 c) hm
    obtain ⟨j1, j2⟩ := ih (get_cell_value s2 trow c t) (get_cell_value s2 nrow c n)
      (get_cell_value s2 drow c d)
    constructor
    · simp only [runRow, List.map_cons, recHeader, e1, e2, e3, j1]
    · simp only [runRow, e1, e2, e3, j2]

/-- `runRow_congr` lifted to the full iteration. -/
theorem runRows_congr (s1 s2 : Sheet) (trow nrow drow ccol : Nat) (today : Int)
    (cols : List Nat) (rows : List Nat) (st : Option String × Option String × Option String)
    (hm : s1.merged = s2.merged)
    (h1 : ∀ c, s1.values trow c = s2.values trow c)
    (h2 : ∀ c, s1.values nrow c = s2.values nrow c)
    (h3 : ∀ c, s1.values drow c = s2.values drow c) :
    (runRows s1 trow nrow drow ccol today cols rows st).map recHeader =
      (runRows s2 trow nrow drow ccol today cols rows st).map recHeader := by
  induction rows generalizing st with
  | nil => rfl
  | cons r rs ih =>
    obtain ⟨st1, st2, st3⟩ : ∃ a b c, st = (a, b, c) := ⟨st.1, st.2.1, st.2.2, rfl⟩
    obtain ⟨j1, j2⟩ := runRow_congr s1 s2 trow nrow drow ccol today r cols st.1 st.2.1 st.2.2
      hm h1 h2 h3
    simp only [runRows, List.map_append, j1, j2, ih]

theorem scanMaxAux_congr (s1 s2 : Sheet) (h1 : ∀ c, s1.values 1 c = s2.values 1 c)
    (hm : s1.merged = s2.merged) : ∀ (fuel i : Nat) (acc : Option String),
    scanMaxAux s1 i fuel acc = scanMaxAux s2 i fuel acc := by
  intro fuel
  induction fuel with
  | zero => intro i acc; rfl
  | succ fuel ih =>
    intro i acc
    have hmg : is_merged s1 1 i = is_merged s2 1 i := by unfold is_merged; rw [hm]
    rw [scanMaxAux, scanMaxAux, h1 i, hmg, ih]

/-! ## Claim theorems -/

/-- C9: a blank cell outside every merged region resolves, through
`str(None).lower()`, to the literal string `"none"` — not the carried
`default` — and `"none"` as a date header yields offset 0, so the emitted
date is `today` itself. -/
theorem C9_blank_unmerged_is_none (s : Sheet) (r c : Nat)
    (default : Option String) (today : Int)
    (hblank : s.values r c = PyVal.vnone) (hunm : is_merged s r c = false) :
    get_cell_value s r c default = some "none" ∧
    today + as_int (pyOfHeader (get_cell_value s r c default)) = today := by
  have h1 : get_cell_value s r c default = some "none" := by
    unfold get_cell_value
    rw [if_neg, hblank]
    · rfl
    · rw [hunm]
      rintro ⟨-, h⟩
      exact Bool.false_ne_true h
  refine ⟨h1, ?_⟩
  rw [h1]
  have h2 : as_int (pyOfHeader (some "none")) = 0 := by decide
  rw [h2, add_zero]

/-- C9 witness: the blank unmerged cell A1 of `sheetBlankA1`, with a carried
default `"carried"`, resolves to `"none"` and contributes date offset 0. -/
theorem C9_witness :
    get_cell_value sheetBlankA1 1 1 (some "carried") = some "none" ∧
    (5 : Int) + as_int (pyOfHeader (get_cell_value sheetBlankA1 1 1 (some "carried"))) = 5 :=
  C9_blank_unmerged_is_none sheetBlankA1 1 1 (some "carried") 5 (by decide) (by decide)

/-- C10: when cell A1 is blank and unmerged the construction-time scan stops
at once and leaves `max_column = None`; construction itself succeeds, but
every call of `iter` — whatever its arguments — then fails (TypeError while
building the end coordinate `None + str(max_row)`) before yielding anything,
modelled as the `none` result. -/
theorem C10_blank_A1_iter_fails (s : Sheet) (today : Int) (sr : Nat) (sc : String)
    (tr nr dr : Nat) (cc : String)
    (hblank : s.values 1 1 = PyVal.vnone) (hunm : is_merged s 1 1 = false) :
    (SheetParser.init s).max_column = none ∧
    (SheetParser.init s).iter sr sc tr nr dr cc today = none := by
  have h1 : (SheetParser.init s).max_column = none := scanMax_stop1 s ⟨hblank, hunm⟩
  refine ⟨h1, ?_⟩
  unfold SheetParser.iter
  rw [h1]

/-- C10 witness: on `sheetBlankA1` with the default `iter` arguments. -/
theorem C10_witness :
    (SheetParser.init sheetBlankA1).max_column = none ∧
    (SheetParser.init sheetBlankA1).iter 4 "C" 1 2 3 "B" 0 = none :=
  C10_blank_A1_iter_fails sheetBlankA1 0 4 "C" 1 2 3 "B" (by decide) (by decide)

/-- C3 counterexample: the string `" 7 "` ends in a space, so its trailing
digit run is empty and the claim demands the result 0; but the unchanged
string falls through to Python's `int()`, which strips whitespace and returns
7.  (`as_int(" 7 ") = 7`, not 0, refuting the claim as stated.) -/
theorem C3_counterexample :
    as_int (PyVal.vstr " 7 ") = 7 ∧ tdigits " 7 ".data = [] := by decide

/-- C3 (amended): on newline-free strings, `as_int` returns the integer formed
by the trailing run of decimal digits when one exists; when none exists it
falls back to Python `int()` over the whole string — 0 only when that parse
also fails (so e.g. `" 7 "` gives 7, `"-5 "` gives -5).  The four quoted
examples hold as stated. -/
theorem C3_as_int_characterisation (s : String)
    (hnl : ∀ c ∈ s.data, c.toNat ≠ 10) :
    (tdigits s.data ≠ [] →
      as_int (PyVal.vstr s) = Int.ofNat (natOfDigits (tdigits s.data))) ∧
    (tdigits s.data = [] →
      as_int (PyVal.vstr s) = (pyIntChars s.data).getD 0) ∧
    as_int (PyVal.vstr "abc123") = 123 ∧ as_int (PyVal.vstr "abc") = 0 ∧
    as_int PyVal.vnone = 0 ∧ as_int (PyVal.vint (-5)) = 5 := by
  refine ⟨?_, ?_, by decide, by decide, by decide, by decide⟩
  · intro hd
    unfold as_int
    rw [show pyStr (PyVal.vstr s) = s from rfl, reSub_digits s.data hnl hd,
      pyIntChars_digits _ hd (tdigits_all_dig _)]
  · intro hd
    unfold as_int
    rw [show pyStr (PyVal.vstr s) = s from rfl, reSub_nodigits s.data hnl hd]
    cases pyIntChars s.data <;> rfl

/-- C3 witness: the characterisation applied at `"abc123"`. -/
theorem C3_witness :
    (tdigits "abc123".data ≠ [] →
      as_int (PyVal.vstr "abc123") = Int.ofNat (natOfDigits (tdigits "abc123".data))) ∧
    (tdigits "abc123".data = [] →
      as_int (PyVal.vstr "abc123") = (pyIntChars "abc123".data).getD 0) ∧
    as_int (PyVal.vstr "abc123") = 123 ∧ as_int (PyVal.vstr "abc") = 0 ∧
    as_int PyVal.vnone = 0 ∧ as_int (PyVal.vint (-5)) = 5 :=
  C3_as_int_characterisation "abc123" (by decide)

/-- C7 counterexample: the claim quantifies over arbitrary strings, but the
f-string interpolation is not escaped — for `type = "a'b"` the INSERT text
contains `'a'b'`, which sqlite rejects as malformed, so the append raises
instead of inserting a row. -/
theorem C7_counterexample :
    ReportTable.append (ReportTable.create []) "a'b" "n" 0 1 2 = none := by decide

/-- C7 (amended): for every record whose `type` and `name` strings contain no
single-quote character, one `append` call succeeds and appends exactly that
record as one row, so the row count grows by exactly one.  (Per-call commit
durability is an I/O property outside the model.) -/
theorem C7_append_one_row (t : ReportTable) (ty nm : String) (d v c : Int)
    (hty : ∀ ch ∈ ty.data, ch.toNat ≠ 39) (hnm : ∀ ch ∈ nm.data, ch.toNat ≠ 39) :
    t.append ty nm d v c =
      some ⟨t.rows ++ [⟨ty, nm, isoDate d, v, c⟩]⟩ ∧
    (t.append ty nm d v c).map (fun u => u.rows.length) = some (t.rows.length + 1) := by
  have h1 : t.append ty nm d v c = some ⟨t.rows ++ [⟨ty, nm, isoDate d, v, c⟩]⟩ := by
    unfold ReportTable.append
    rw [sqlLiteral_quoteFree ty.data hty, sqlLiteral_quoteFree nm.data hnm]
  refine ⟨h1, ?_⟩
  rw [h1, Option.map_some']
  simp

/-- C7 witness: one append of a quote-free record onto the empty table. -/
theorem C7_witness :
    ReportTable.append ⟨[]⟩ "revenue" "sales" 0 100 7 =
      some ⟨[⟨"revenue", "sales", isoDate 0, 100, 7⟩]⟩ ∧
    (ReportTable.append ⟨[]⟩ "revenue" "sales" 0 100 7).map
        (fun u => u.rows.length) = some ((⟨[]⟩ : ReportTable).rows.length + 1) :=
  C7_append_one_row ⟨[]⟩ "revenue" "sales" 0 100 7 (by decide) (by decide)

/-- C8 counterexample: on the freshly created (empty) store, the aggregate
query `SELECT SUM(value)` with no grouping returns one row (holding NULL),
not zero rows — refuting "every select call ... returns zero result rows". -/
theorem C8_counterexample :
    ((ReportTable.create [⟨"t", "n", "d", 1, 2⟩]).select [SelField.sum] none).length
      = 1 := by decide

/-- C8 (amended): construction discards any prior contents and leaves zero
rows; in that state every aggregate-free ungrouped select and every grouped
select (any field list) returns zero result rows, while an aggregate select
without grouping returns exactly one row. -/
theorem C8_fresh_store_empty (prior : List DBRow) (fields : List SelField)
    (gcols : List ColField)
    (hna : ∀ f ∈ fields, f ≠ SelField.sum) :
    (ReportTable.create prior).rows = [] ∧
    (ReportTable.create prior).select fields none = [] ∧
    (∀ fs : List SelField, (ReportTable.create prior).select fs (some gcols) = []) := by
  refine ⟨rfl, ?_, ?_⟩
  · have h' : fields.any SelField.isAgg = false := by
      rw [List.any_eq_false]
      intro f hf
      cases f with
      | sum => exact absurd rfl (hna _ hf)
      | col c => simp [SelField.isAgg]
    unfold ReportTable.select ReportTable.create
    rw [if_neg]
    · rfl
    · rw [h']
      exact Bool.false_ne_true
  · intro fs
    unfold ReportTable.select ReportTable.create
    simp [firstKeys]

/-- C8 witness: a store opened over a nonempty prior file state, with the
program's own projection and grouping columns. -/
theorem C8_witness :
    (ReportTable.create [⟨"x", "y", "z", 3, 4⟩]).rows = [] ∧
    (ReportTable.create [⟨"x", "y", "z", 3, 4⟩]).select
        [SelField.col ColField.fdate, SelField.col ColField.ftype] none = [] ∧
    (∀ fs : List SelField, (ReportTable.create [⟨"x", "y", "z", 3, 4⟩]).select fs
        (some [ColField.fdate, ColField.fname, ColField.ftype]) = []) :=
  C8_fresh_store_empty [⟨"x", "y", "z", 3, 4⟩]
    [SelField.col ColField.fdate, SelField.col ColField.ftype]
    [ColField.fdate, ColField.fname, ColField.ftype] (by decide)

theorem visitedCols_some (p : SheetParser) (sc mc : String)
    (h : p.max_column = some mc) :
    visitedCols p sc = List.range' (colIndex sc) (colIndex mc + 1 - colIndex sc) := by
  unfold visitedCols
  rw [h]

/-- C4: the construction scan walks row 1 from column 1 and stops at the first
blank unmerged cell, leaving `max_column` the letter of the last passing
column (`None` if the very first cell stops it); consequently, in the default
start-column-C iteration every visited column lies strictly left of the
stopping column — with the stop at D (k = 4), `max_column = "C"` and columns
at or beyond D are never visited. -/
theorem C4_max_column_scan (s : Sheet) (k : Nat)
    (hk1 : 1 ≤ k) (hk : k ≤ s.maxCol)
    (hstop : scanStops s k)
    (hpass : ∀ m, 1 ≤ m → m < k → ¬ scanStops s m) :
    (SheetParser.init s).max_column =
      (if k = 1 then none else some (colLetter (k - 1))) ∧
    (∀ c ∈ visitedCols (SheetParser.init s) "C", c < k) := by
  have h1 : (SheetParser.init s).max_column =
      if k = 1 then none else some (colLetter (k - 1)) :=
    scanMaxAux_spec s s.maxCol 1 k none hk1 (by omega) hstop hpass
  refine ⟨h1, ?_⟩
  intro c hc
  by_cases hk1' : k = 1
  · have h0 : (SheetParser.init s).max_column = none := by rw [h1, if_pos hk1']
    unfold visitedCols at hc
    rw [h0] at hc
    simp at hc
  · rw [if_neg hk1'] at h1
    rw [visitedCols_some _ _ _ h1, colIndex_colLetter _ (by omega),
      show colIndex "C" = 3 from by decide, List.mem_range'_1] at hc
    omega

/-- C4 witness: `sheetBlankD` (row 1 populated in A..C, blank unmerged D1)
stops the scan at column 4: `max_column = "C"` and only column C is visited. -/
theorem C4_witness :
    (SheetParser.init sheetBlankD).max_column =
      (if 4 = 1 then none else some (colLetter (4 - 1))) ∧
    (∀ c ∈ visitedCols (SheetParser.init sheetBlankD) "C", c < 4) :=
  C4_max_column_scan sheetBlankD 4 (by decide) (by decide) (by decide)
    (by intro m h1 h2; interval_cases m <;> decide)

/-- C5: the `type`, `name` and `date` components of the emitted records are
functions of the header rows (1, 2, 3) and the merged regions only: two
sheets of equal dimensions and merged ranges that can differ at most at one
cell in the data region (row ≥ 4 — in particular at any record's own data
cell) produce, under the default parameters, record sequences with identical
header components throughout. -/
theorem C5_headers_independent_of_data (s1 s2 : Sheet) (r0 c0 : Nat) (today : Int)
    (hmr : s1.maxRow = s2.maxRow) (hmc : s1.maxCol = s2.maxCol)
    (hmg : s1.merged = s2.merged)
    (hvals : ∀ r c, ¬ (r = r0 ∧ c = c0) → s1.values r c = s2.values r c)
    (hr0 : 4 ≤ r0) :
    (iterDefault (SheetParser.init s1) today).map (List.map recHeader) =
      (iterDefault (SheetParser.init s2) today).map (List.map recHeader) := by
  have h1 : ∀ c, s1.values 1 c = s2.values 1 c :=
    fun c => hvals 1 c (by rintro ⟨h, -⟩; omega)
  have h2 : ∀ c, s1.values 2 c = s2.values 2 c :=
    fun c => hvals 2 c (by rintro ⟨h, -⟩; omega)
  have h3 : ∀ c, s1.values 3 c = s2.values 3 c :=
    fun c => hvals 3 c (by rintro ⟨h, -⟩; omega)
  have hmax : (SheetParser.init s1).max_column = (SheetParser.init s2).max_column := by
    show scanMax s1 = scanMax s2
    unfold scanMax
    rw [hmc, scanMaxAux_congr s1 s2 h1 hmg]
  have hvc : visitedCols (SheetParser.init s1) "C" =
      visitedCols (SheetParser.init s2) "C" := by
    unfold visitedCols
    rw [hmax]
  have hvr : visitedRows (SheetParser.init s1) 4 =
      visitedRows (SheetParser.init s2) 4 := by
    unfold visitedRows
    show List.range' 4 (s1.maxRow + 1 - 4) = List.range' 4 (s2.maxRow + 1 - 4)
    rw [hmr]
  unfold iterDefault SheetParser.iter
  rw [hmax]
  cases hm2 : (SheetParser.init s2).max_column with
  | none => rfl
  | some mc =>
    simp only [Option.map_some']
    rw [show (SheetParser.init s1).sheet = s1 from rfl,
      show (SheetParser.init s2).sheet = s2 from rfl, hvc, hvr]
    exact congrArg some (runRows_congr s1 s2 1 2 3 (colIndex "B") today
      (visitedCols (SheetParser.init s2) "C") (visitedRows (SheetParser.init s2) 4)
      (none, none, none) hmg h1 h2 h3)

/-- C5 witness: `sheetC1` against `sheetC1data` (only data cell C4 changed
from `"100"` to `"777"`): the mapped header components coincide. -/
theorem C5_witness :
    (iterDefault (SheetParser.init sheetC1) 0).map (List.map recHeader) =
      (iterDefault (SheetParser.init sheetC1data) 0).map (List.map recHeader) :=
  C5_headers_independent_of_data sheetC1 sheetC1data 4 3 0 rfl rfl rfl
    (by
      intro r c h
      show sheetC1.values r c =
        if r = 4 ∧ c = 3 then PyVal.vstr "777" else sheetC1.values r c
      rw [if_neg h])
    (by omega)

/-- Appending quote-free records always succeeds and appends exactly the
given fields (dates in ISO form), in order. -/
theorem appendAll_quoteFree (recs : List (String × String × Int × Int × Int)) :
    ∀ (t : ReportTable),
    (∀ p ∈ recs, (∀ ch ∈ p.1.data, ch.toNat ≠ 39) ∧ (∀ ch ∈ p.2.1.data, ch.toNat ≠ 39)) →
    appendAll t recs = some ⟨t.rows ++ recs.map (fun p =>
      ⟨p.1, p.2.1, isoDate p.2.2.1, p.2.2.2.1, p.2.2.2.2⟩)⟩ := by
  induction recs with
  | nil => intro t _; simp [appendAll]
  | cons p ps ih =>
    intro t hq
    obtain ⟨hty, hnm⟩ := hq p (by simp)
    have ha : t.append p.1 p.2.1 p.2.2.1 p.2.2.2.1 p.2.2.2.2 =
        some ⟨t.rows ++ [⟨p.1, p.2.1, isoDate p.2.2.1, p.2.2.2.1, p.2.2.2.2⟩]⟩ := by
      unfold ReportTable.append
      rw [sqlLiteral_quoteFree _ hty, sqlLiteral_quoteFree _ hnm]
    unfold appendAll
    rw [ha]
    show appendAll ⟨t.rows ++ [DBRow.mk p.1 p.2.1 (isoDate p.2.2.1)
      p.2.2.2.1 p.2.2.2.2]⟩ ps = _
    rw [ih _ (fun x hx => hq x (by simp [hx]))]
    simp

/-- C6 counterexample: a record whose `type` field is `"a''b"` appends without
error, but sqlite decodes the doubled quote, storing `"a'b"`: the selected
row's field is not the appended record's field, refuting the unrestricted
round-trip claim. -/
theorem C6_counterexample :
    (appendAll (ReportTable.create []) [("a''b", "n", 0, 1, 2)]).map
        (fun t => t.select [SelField.col ColField.ftype] none) =
      some [[SqlVal.s "a'b"]] ∧ "a'b" ≠ "a''b" := by
  constructor
  · decide
  · decide

/-- C6 (amended): for every list of records whose `type` and `name` fields
contain no single-quote character, appending them all and then selecting all
five columns with no grouping returns exactly one result row per appended
record, in order, with all fields equal to the appended ones and the date
rendered as ISO-8601 `YYYY-MM-DD` text. -/
theorem C6_round_trip (recs : List (String × String × Int × Int × Int))
    (hq : ∀ p ∈ recs,
      (∀ ch ∈ p.1.data, ch.toNat ≠ 39) ∧ (∀ ch ∈ p.2.1.data, ch.toNat ≠ 39)) :
    (appendAll (ReportTable.create []) recs).map
        (fun t => t.select [SelField.col ColField.ftype, SelField.col ColField.fname,
          SelField.col ColField.fdate, SelField.col ColField.fvalue,
          SelField.col ColField.fcompany] none) =
      some (recs.map tupleRow) ∧
    (appendAll (ReportTable.create []) recs).map (fun t => t.rows.length) =
      some recs.length := by
  rw [appendAll_quoteFree recs (ReportTable.create []) hq]
  constructor
  · rw [Option.map_some']
    congr 1
    unfold ReportTable.select
    rw [if_neg (by decide)]
    show (recs.map _).map _ = recs.map tupleRow
    rw [List.map_map]
    rfl
  · rw [Option.map_some']
    simp [ReportTable.create]

/-- C6 witness: two quote-free records round-trip exactly. -/
theorem C6_witness :
    (appendAll (ReportTable.create []) [("revenue", "sales", 0, 100, 7), ("a", "b", 1, 2, 3)]).map
        (fun t => t.select [SelField.col ColField.ftype, SelField.col ColField.fname,
          SelField.col ColField.fdate, SelField.col ColField.fvalue,
          SelField.col ColField.fcompany] none) =
      some ([("revenue", "sales", 0, 100, 7), ("a", "b", 1, 2, 3)].map tupleRow) ∧
    (appendAll (ReportTable.create []) [("revenue", "sales", 0, 100, 7), ("a", "b", 1, 2, 3)]).map
        (fun t => t.rows.length) =
      some ([("revenue", "sales", (0 : Int), (100 : Int), (7 : Int)), ("a", "b", 1, 2, 3)]).length :=
  C6_round_trip [("revenue", "sales", 0, 100, 7), ("a", "b", 1, 2, 3)] (by decide)

/-- C2 counterexample: on `sheetAnchorWest` the merged region A1:C1 is
anchored at A1 = `"X"` (non-blank), and the extractor visits span column C —
yet the record emitted under column C carries `type = None` (the carried
default), not the anchor's value: spans whose anchor lies left of the start
column are not attributed the anchor value, refuting the claim as stated. -/
theorem C2_counterexample :
    (SheetParser.init sheetAnchorWest).iter 4 "C" 1 2 3 "B" 0 =
      some [⟨none, some "none", 0, 5, 0⟩] ∧
    (none : Option String) ≠
      some (asciiLower (pyStr (sheetAnchorWest.values 1 1))) := by
  constructor <;> decide

/-- C2 (amended): (a) the extractor's records carry, as their `type`, `name`
and date-offset header components, exactly the values `attrib` assigns along
the visited column sequence; (b) along any visited column sequence that
reaches a single-row merged region's anchor column and continues through the
span in order, every span column up to `rg.maxCol` is attributed the
anchor's (lower-cased) value — whatever was carried before.  Together: every
visited merged-span column at or right of the anchor is attributed the
anchor's value; a span column visited without its anchor (anchor left of the
start column) keeps the carried default instead. -/
theorem C2_merged_span_attribution (s : Sheet) (today : Int) (recs : List Record)
    (mc : String) (rg : MergedRange) (hr j : Nat) (pre : List Nat) (d0 : Option String)
    (hmc : (SheetParser.init s).max_column = some mc)
    (hiter : (SheetParser.init s).iter 4 "C" 1 2 3 "B" today = some recs)
    (hmem : rg ∈ s.merged) (hrow1 : rg.minRow = hr) (hrow2 : rg.maxRow = hr)
    (hanchor : s.values hr rg.minCol ≠ PyVal.vnone)
    (hblank : ∀ k, rg.minCol < k → k ≤ rg.maxCol → s.values hr k = PyVal.vnone)
    (hj : rg.minCol + j ≤ rg.maxCol) :
    (recs.map Record.type =
        attrib s 1 none (colSeq (visitedRows (SheetParser.init s) 4).length
          (visitedCols (SheetParser.init s) "C")) ∧
     recs.map Record.name =
        attrib s 2 none (colSeq (visitedRows (SheetParser.init s) 4).length
          (visitedCols (SheetParser.init s) "C")) ∧
     recs.map Record.date =
        (attrib s 3 none (colSeq (visitedRows (SheetParser.init s) 4).length
          (visitedCols (SheetParser.init s) "C"))).map
          (fun x => today + as_int (pyOfHeader x))) ∧
    attribLast s hr d0 (pre ++ List.range' rg.minCol (j + 1)) =
      some (asciiLower (pyStr (s.values hr rg.minCol))) := by
  have hrecs : recs = runRows s 1 2 3 (colIndex "B") today
      (visitedCols (SheetParser.init s) "C") (visitedRows (SheetParser.init s) 4)
      (none, none, none) := by
    unfold SheetParser.iter at hiter
    rw [hmc] at hiter
    injection hiter with h
    exact h.symm
  obtain ⟨g1, g2, g3⟩ := runRows_spec s 1 2 3 (colIndex "B") today
    (visitedCols (SheetParser.init s) "C") (visitedRows (SheetParser.init s) 4)
    none none none
  refine ⟨⟨by rw [hrecs]; exact g1, by rw [hrecs]; exact g2, by rw [hrecs]; exact g3⟩, ?_⟩
  rw [attribLast_append]
  have hmerged : ∀ k, rg.minCol < k → k ≤ rg.maxCol → is_merged s hr k = true := by
    intro k h1 h2
    unfold is_merged
    rw [List.any_eq_true]
    refine ⟨rg, hmem, ?_⟩
    unfold MergedRange.containsCell
    simp only [Bool.and_eq_true, decide_eq_true_eq]
    omega
  exact attribLast_span s hr rg.minCol j (attribLast s hr d0 pre) hanchor
    (fun k h1 h2 => ⟨hblank k h1 (by omega), hmerged k h1 (by omega)⟩)

/-- C2 witness: `sheetSpanEast` (merge C1:E1 anchored at C1 = `"Rev"`): all
three span columns are visited and the first record components match the
attribution sequence; the span scan ends carrying `some "rev"`. -/
theorem C2_witness :
    (([⟨some "rev", some "n", 1, 10, 0⟩, ⟨some "rev", some "n", 2, 0, 0⟩,
       ⟨some "rev", some "n", 3, 0, 0⟩] : List Record).map Record.type =
        attrib sheetSpanEast 1 none
          (colSeq (visitedRows (SheetParser.init sheetSpanEast) 4).length
            (visitedCols (SheetParser.init sheetSpanEast) "C")) ∧
     ([⟨some "rev", some "n", 1, 10, 0⟩, ⟨some "rev", some "n", 2, 0, 0⟩,
       ⟨some "rev", some "n", 3, 0, 0⟩] : List Record).map Record.name =
        attrib sheetSpanEast 2 none
          (colSeq (visitedRows (SheetParser.init sheetSpanEast) 4).length
            (visitedCols (SheetParser.init sheetSpanEast) "C")) ∧
     ([⟨some "rev", some "n", 1, 10, 0⟩, ⟨some "rev", some "n", 2, 0, 0⟩,
       ⟨some "rev", some "n", 3, 0, 0⟩] : List Record).map Record.date =
        (attrib sheetSpanEast 3 none
          (colSeq (visitedRows (SheetParser.init sheetSpanEast) 4).length
            (visitedCols (SheetParser.init sheetSpanEast) "C"))).map
          (fun x => (0 : Int) + as_int (pyOfHeader x))) ∧
    attribLast sheetSpanEast 1 none ([] ++ List.range' 3 (2 + 1)) =
      some (asciiLower (pyStr (sheetSpanEast.values 1 3))) :=
  C2_merged_span_attribution sheetSpanEast 0
    [⟨some "rev", some "n", 1, 10, 0⟩, ⟨some "rev", some "n", 2, 0, 0⟩,
     ⟨some "rev", some "n", 3, 0, 0⟩]
    "E" ⟨1, 3, 1, 5⟩ 1 2 [] none
    (by decide) (by decide) (by decide) rfl rfl (by decide)
    (by intro k h1 h2; interval_cases k <;> decide) (by decide)

/-- C1: on the scenario sheet (`"revenue"` merged across C:D in row 1,
`"sales"` and `"10"` spanning C:D in rows 2 and 3, data row 4 with C=100,
D=200, company column B=7), `iter()` with default parameters yields exactly
the two records `("revenue", "sales", today+10, 100, 7)` and
`("revenue", "sales", today+10, 200, 7)` in that order, and loading them and
issuing `SELECT date, name, type, SUM(value) GROUP BY date, name, type`
returns a single group row with total 300. -/
theorem C1_end_to_end (today : Int) :
    iterDefault (SheetParser.init sheetC1) today =
      some [⟨some "revenue", some "sales", today + 10, 100, 7⟩,
            ⟨some "revenue", some "sales", today + 10, 200, 7⟩] ∧
    (loadRecords (ReportTable.create [])
        [⟨some "revenue", some "sales", today + 10, 100, 7⟩,
         ⟨some "revenue", some "sales", today + 10, 200, 7⟩]).map
      (fun t => t.select [SelField.col ColField.fdate, SelField.col ColField.fname,
        SelField.col ColField.ftype, SelField.sum]
        (some [ColField.fdate, ColField.fname, ColField.ftype])) =
      some [[SqlVal.s (isoDate (today + 10)), SqlVal.s "sales",
             SqlVal.s "revenue", SqlVal.i 300]] := by
  constructor
  · rfl
  · have hload : loadRecords (ReportTable.create [])
        [⟨some "revenue", some "sales", today + 10, 100, 7⟩,
         ⟨some "revenue", some "sales", today + 10, 200, 7⟩] =
        some ⟨[DBRow.mk "revenue" "sales" (isoDate (today + 10)) 100 7,
               DBRow.mk "revenue" "sales" (isoDate (today + 10)) 200 7]⟩ := rfl
    rw [hload, Option.map_some']
    generalize isoDate (today + 10) = d
    have hkeys : ([DBRow.mk "revenue" "sales" d 100 7,
        DBRow.mk "revenue" "sales" d 200 7].map
          (rowKey [ColField.fdate, ColField.fname, ColField.ftype])) =
        [[SqlVal.s d, SqlVal.s "sales", SqlVal.s "revenue"],
         [SqlVal.s d, SqlVal.s "sales", SqlVal.s "revenue"]] := rfl
    simp only [ReportTable.select]
    rw [hkeys]
    have hfk : firstKeys [[SqlVal.s d, SqlVal.s "sales", SqlVal.s "revenue"],
        [SqlVal.s d, SqlVal.s "sales", SqlVal.s "revenue"]] =
        [[SqlVal.s d, SqlVal.s "sales", SqlVal.s "revenue"]] := by
      rw [firstKeys, firstKeys.eq_def]
      simp
    rw [hfk]
    simp only [List.map_cons, List.map_nil]
    simp [rowKey, rowVal, aggEval, List.filter]

/-! ## Concrete evaluations of the embedded definitions -/

example : as_int (.vstr "abc123") = 123 := by decide
example : as_int (.vstr "abc") = 0 := by decide
example : as_int .vnone = 0 := by decide
example : as_int (.vint (-5)) = 5 := by decide
example : as_int (.vstr " 7 ") = 7 := by decide
example : as_int (.vstr "10") = 10 := by decide
example : as_int (.vstr "none") = 0 := by decide
example : as_int (.vstr "12a34") = 34 := by decide
example : as_int (.vstr "7\n") = 7 := by decide
example : as_int (.vstr "a\nb123") = 0 := by decide
example : as_int (.vstr " \n123") = 123 := by decide
example : as_int (.vstr "-5 ") = -5 := by decide
example : colLetter 3 = "C" := by decide
example : colLetter 28 = "AB" := by decide
example : colIndex "C" = 3 := by decide
example : colIndex "AB" = 28 := by decide
example : isoDate 0 = "1970-01-01" := by decide
example : isoDate 20738 = "2026-10-12" := by decide
example : isoDate (-1) = "1969-12-31" := by decide
example : sqlLiteral "ab".data = some "ab".data := by decide
example : sqlLiteral "a'b".data = none := by decide
example : sqlLiteral "a''b".data = some "a'b".data := by decide
example : (SheetParser.init sheetC1).max_column = some "D" := by decide
example : visitedCols (SheetParser.init sheetC1) "C" = [3, 4] := by decide
example : visitedRows (SheetParser.init sheetC1) 4 = [4] := by decide
example : iterDefault (SheetParser.init sheetC1) 0 =
    some [⟨some "revenue", some "sales", 10, 100, 7⟩,
          ⟨some "revenue", some "sales", 10, 200, 7⟩] := by decide
